import Mathlib

/-!
# Verification of the puck-game physics core (`src/components/HockeyGame.tsx`)

Shallow embedding of the game's data model and operations over `ℚ`.

Conventions used throughout:

* JavaScript numbers are modelled as rationals.  Every comparison the source
  makes between a Euclidean distance `Math.sqrt(s)` and a nonnegative radius
  `r` is embedded as the equivalent comparison `s < r ^ 2` between rationals
  (`Real.sqrt s < r ↔ s < r ^ 2` for `0 ≤ s`, `0 ≤ r`), so no square roots are
  needed for the detection predicates.
* Where the source uses the *value* of a distance (the collision-normal
  computation in `handleTargetCollisions`), the distance is irrational in
  general, so the embedded function receives it as an extra argument `d`;
  theorems about it carry the hypotheses `0 < d` and `d * d = distSq …`
  linking `d` to the positions.
* The fragment of JavaScript float semantics needed to analyse the
  division-by-zero path of the collision normal is modelled separately by
  `JsNum` (`Option ℚ`, with `none` playing NaN).
* `Math.random()` is modelled by an explicit stream `rng : ℕ → ℚ` of draws,
  consumed in source order.
-/

/-! ## Constants (lines 3–17 of the source) -/

def PUCK_RADIUS : ℚ := 10

def FRICTION : ℚ := 37 / 40          -- 0.925

def WALL_BOUNCE : ℚ := 9 / 10        -- 0.9

def VELOCITY_THRESHOLD : ℚ := 1 / 5  -- 0.2

def BORDER_WIDTH : ℚ := 30

def HOLE_RADIUS : ℚ := 30

def HOLE_VERTICAL_SPACING : ℚ := 300

def TARGET_RADIUS : ℚ := 15

def DISK_BOUNCE : ℚ := 19 / 20       -- 0.95

def TARGETS_PER_SECTION : ℕ := 3

def COLLISION_MULTIPLIER : ℚ := 6 / 5 -- 1.2

/-- Squared Euclidean distance.  The source's `distance` helper returns
`Math.sqrt` of this quantity; all detection predicates below compare the
squared form against the squared radius. -/
def distSq (x1 y1 x2 y2 : ℚ) : ℚ := (x2 - x1) ^ 2 + (y2 - y1) ^ 2

/-! ## Entity state -/

structure Hole where
  x : ℚ
  y : ℚ
deriving DecidableEq

/-- A target disk.  `type = true` models `'red'` (high value), `type = false`
models `'blue'`. -/
structure Target where
  x : ℚ
  y : ℚ
  vx : ℚ
  vy : ℚ
  type : Bool
  scale : ℚ
  isVisible : Bool
deriving DecidableEq

structure Puck where
  x : ℚ
  y : ℚ
  vx : ℚ
  vy : ℚ
deriving DecidableEq

/-- The React state touched by the physics loop of `HockeyGame`. -/
structure GameState where
  puck : Puck
  targets : List Target
  holes : List Hole
  width : ℚ
  height : ℚ
  viewOffset : ℚ
  score : ℤ
  isMoving : Bool
  isSinking : Bool
deriving DecidableEq

/-! ## Hole-sink detection (`checkHoleCollision`, `checkTargetHoleCollision`,
source lines 125–134 and 188–197) -/

/-- Lines 125–134: the puck sinks when it is within `HOLE_RADIUS` of some hole
centre *and* on the field side of that hole.  The source tests the puck at
`(puck.x, puck.y + viewOffset)`. -/
def checkHoleCollision (width : ℚ) (holes : List Hole) (px py viewOffset : ℚ) : Bool :=
  holes.any fun hole =>
    let isOnCorrectSide : Bool :=
      if hole.x < width / 2 then decide (px > hole.x) else decide (px < hole.x)
    decide (distSq px (py + viewOffset) hole.x hole.y < HOLE_RADIUS ^ 2) && isOnCorrectSide

/-- Lines 188–197: the same test for a target, at `(target.x, target.y)`. -/
def checkTargetHoleCollision (width : ℚ) (holes : List Hole) (t : Target) : Bool :=
  holes.any fun hole =>
    let isOnCorrectSide : Bool :=
      if hole.x < width / 2 then decide (t.x > hole.x) else decide (t.x < hole.x)
    decide (distSq t.x t.y hole.x hole.y < HOLE_RADIUS ^ 2) && isOnCorrectSide

/-! ## Puck–target collision resolution (`handleTargetCollisions`,
source lines 137–185) -/

/-- The accumulator of `handleTargetCollisions`: the running
`finalPuckVx`/`finalPuckVy` closure variables and the `hasCollision` flag. -/
structure CollideAcc where
  vx : ℚ
  vy : ℚ
  hit : Bool
deriving DecidableEq

/-- One iteration of the `map` body of `handleTargetCollisions`
(lines 142–182) for a single target.  `d` is the Euclidean distance from the
puck centre `(px, py)` to the target centre (the source's
`Math.sqrt(dx*dx + dy*dy)`), passed in explicitly because it is irrational in
general; theorems supply `0 < d` and `d * d = distSq px py t.x t.y`.
The source also computes an unused local `speed`; it is omitted. -/
def collideOne (px py : ℚ) (acc : CollideAcc) (t : Target) (d : ℚ) : CollideAcc × Target :=
  if t.isVisible = false then (acc, t)
  else
    let dx := t.x - px
    let dy := t.y - py
    let minDistance := (PUCK_RADIUS + TARGET_RADIUS) * COLLISION_MULTIPLIER
    if d < minDistance then
      let nx := dx / d
      let ny := dy / d
      let newTargetVx := -acc.vx * DISK_BOUNCE
      let newTargetVy := -acc.vy * DISK_BOUNCE
      let fvx := acc.vx * WALL_BOUNCE
      let fvy := acc.vy * WALL_BOUNCE
      let overlap := minDistance - d
      let pushX := nx * overlap / 2
      let pushY := ny * overlap / 2
      (⟨fvx, fvy, true⟩,
       { t with x := t.x + pushX, y := t.y + pushY, vx := newTargetVx, vy := newTargetVy })
    else (acc, t)

/-- Lines 137–185: a `map` over the target list threading the
`finalPuckVx`/`finalPuckVy`/`hasCollision` closure variables through in list
order.  `ds n` is the distance from the puck to the `n`-th remaining target. -/
def handleTargetCollisions (px py : ℚ) :
    CollideAcc → List Target → (ℕ → ℚ) → List Target × CollideAcc
  | acc, [], _ => ([], acc)
  | acc, t :: rest, ds =>
    let r := collideOne px py acc t (ds 0)
    let tl := handleTargetCollisions px py r.1 rest fun n => ds (n + 1)
    (r.2 :: tl.1, tl.2)

/-! ## Wall reflection -/

/-- The two successive clamp-and-reflect `if`s the source applies per axis
(lines 281–296 for the puck, 313–328 for targets): penetration below `lo`
snaps the coordinate to `lo + r`, penetration above `hi` snaps it to
`hi - r`; in both cases the axis velocity is negated and damped by
`WALL_BOUNCE`.  The pair `p` is `(coordinate, axis velocity)`. -/
def wallAxis (lo hi r : ℚ) (p : ℚ × ℚ) : ℚ × ℚ :=
  let a := if p.1 - r < lo then (lo + r, -p.2 * WALL_BOUNCE) else p
  if a.1 + r > hi then (hi - r, -a.2 * WALL_BOUNCE) else a

/-! ## Per-tick target update (second `setTargets` pass, lines 299–341) -/

/-- Lines 299–341: one target's integration step — advance by velocity, wall
reflection on both axes, friction, then the hole test (evaluated, as in the
source, on the *pre-movement* target `t`).  Returns the updated target and
the score increment (`25` for red, `10` for blue, `0` otherwise). -/
def targetTick (width height : ℚ) (holes : List Hole) (t : Target) : Target × ℤ :=
  if t.isVisible = false then (t, 0)
  else
    let xw := wallAxis BORDER_WIDTH (width - BORDER_WIDTH) TARGET_RADIUS (t.x + t.vx, t.vx)
    let yw := wallAxis 0 height TARGET_RADIUS (t.y + t.vy, t.vy)
    let tvx := xw.2 * FRICTION
    let tvy := yw.2 * FRICTION
    if checkTargetHoleCollision width holes t then
      ({ t with isVisible := false }, if t.type then 25 else 10)
    else
      ({ t with x := xw.1, y := yw.1, vx := tvx, vy := tvy }, 0)

/-! ## The physics tick (`step`, source lines 250–358) -/

/-- One full animation tick.  `ds n` is the Euclidean distance from the
advanced puck position to the `n`-th target, supplied externally (see the
module comment).  Mirrors the source's order of effects: puck advance, target
collisions, collision back-off and `DISK_BOUNCE` damping, friction, wall
reflection, target pass (with score accumulation), puck hole test (on the
start-of-tick puck state captured by the `checkHoleCollision` closure), and
the stop-threshold test. -/
def tick (s : GameState) (ds : ℕ → ℚ) : GameState :=
  let x1 := s.puck.x + s.puck.vx
  let y1 := s.puck.y + s.puck.vy
  let hc := handleTargetCollisions x1 y1 ⟨s.puck.vx, s.puck.vy, false⟩ s.targets ds
  let hit := hc.2.hit
  let x2 := if hit then s.puck.x + (x1 - s.puck.x) * (1 / 2) else x1
  let y2 := if hit then s.puck.y + (y1 - s.puck.y) * (1 / 2) else y1
  let vx1 := if hit then hc.2.vx * DISK_BOUNCE else hc.2.vx
  let vy1 := if hit then hc.2.vy * DISK_BOUNCE else hc.2.vy
  let vx2 := vx1 * FRICTION
  let vy2 := vy1 * FRICTION
  let xw := wallAxis BORDER_WIDTH (s.width - BORDER_WIDTH) PUCK_RADIUS (x2, vx2)
  let yw := wallAxis 0 s.height PUCK_RADIUS (y2, vy2)
  let results := hc.1.map fun t => targetTick s.width s.height s.holes t
  let s1 := { s with targets := results.map Prod.fst,
                     score := s.score + (results.map Prod.snd).sum }
  if checkHoleCollision s.width s.holes s.puck.x s.puck.y s.viewOffset then
    { s1 with isSinking := true }
  else if |xw.2| < VELOCITY_THRESHOLD ∧ |yw.2| < VELOCITY_THRESHOLD then
    { s1 with puck := ⟨xw.1, yw.1, 0, 0⟩, isMoving := false }
  else
    { s1 with puck := ⟨xw.1, yw.1, xw.2, yw.2⟩ }

/-- A sequence of ticks, each with its own distance oracle. -/
def tickSeq (s : GameState) (dss : List (ℕ → ℚ)) : GameState :=
  dss.foldl tick s

/-! ## Friction (lines 277–278 for the puck, 331–332 for targets — the same
two statements `v *= FRICTION` on both components) -/

def frictionStep (v : ℚ × ℚ) : ℚ × ℚ := (v.1 * FRICTION, v.2 * FRICTION)

/-- Squared speed `vx² + vy²`; `|velocity| ≤ |velocity'|` for nonnegative
speeds is equivalent to the same inequality on the squares. -/
def speedSq (v : ℚ × ℚ) : ℚ := v.1 ^ 2 + v.2 ^ 2

/-! ## Shot commitment (`handlePointerUp`, source lines 509–527) -/

/-- The local `const scale = 0.1` of `handlePointerUp` (line 516). -/
def shotScale : ℚ := 1 / 10

/-- The state written by `handlePointerUp`. -/
structure UpResult where
  vx : ℚ
  vy : ℚ
  isMoving : Bool
  dragging : Bool
  dragStart : Option (ℚ × ℚ)
  dragEnd : Option (ℚ × ℚ)
deriving DecidableEq

/-- Lines 509–527: when a drag is in progress with both endpoints recorded and
the puck is not moving, the puck's velocity becomes
`(dragStart - dragEnd) * scale` and `isMoving` is set; in every case the drag
state is cleared.  The source's local `dragDistance` is computed but unused,
so it is omitted. -/
def handlePointerUp (dragging : Bool) (dragStart dragEnd : Option (ℚ × ℚ))
    (isMoving : Bool) (pvx pvy : ℚ) : UpResult :=
  match dragging, dragStart, dragEnd, isMoving with
  | true, some a, some c, false =>
    let dx := a.1 - c.1
    let dy := a.2 - c.2
    ⟨dx * shotScale, dy * shotScale, true, false, none, none⟩
  | _, _, _, _ => ⟨pvx, pvy, isMoving, false, none, none⟩

/-! ## Section generation and the resize effect (lines 84–122) -/

/-- Lines 84–100: `TARGETS_PER_SECTION` random targets for the section whose
top is `sectionY`.  `Math.random()` is modelled by the stream `rng`; the
`i`-th target consumes draws `k + 3*i` (for `x`), `k + 3*i + 1` (for `y`) and
`k + 3*i + 2` (for the 30% red draw `Math.random() > 0.7`). -/
def generateTargetsForSection (width : ℚ) (rng : ℕ → ℚ) (k : ℕ) (sectionY : ℚ) :
    List Target :=
  (List.range TARGETS_PER_SECTION).map fun i =>
    { x := BORDER_WIDTH + TARGET_RADIUS +
           rng (k + 3 * i) * (width - 2 * (BORDER_WIDTH + TARGET_RADIUS)),
      y := sectionY + rng (k + 3 * i + 1) * HOLE_VERTICAL_SPACING,
      vx := 0,
      vy := 0,
      type := decide (rng (k + 3 * i + 2) > 7 / 10),
      scale := 1,
      isVisible := true }

/-- Lines 103–122: the layout effect run whenever `canvasSize.height`
changes.  It rebuilds the hole list *and the full target list* from scratch:
for each section index `i ∈ [0, ⌊height / HOLE_VERTICAL_SPACING⌋]` whose
centre row `y = (i + 0.5) * HOLE_VERTICAL_SPACING` is fully visible
(`y < height - HOLE_RADIUS`), it appends a left/right hole pair and three
fresh targets. -/
def regenerate (width height : ℚ) (rng : ℕ → ℚ) : List Hole × List Target :=
  let sections := (⌊height / HOLE_VERTICAL_SPACING⌋).toNat
  (List.range (sections + 1)).foldl
    (fun (acc : List Hole × List Target) (i : ℕ) =>
      let y := ((i : ℚ) + 1 / 2) * HOLE_VERTICAL_SPACING
      if y < height - HOLE_RADIUS then
        (acc.1 ++ [⟨BORDER_WIDTH, y⟩, ⟨width - BORDER_WIDTH, y⟩],
         acc.2 ++ generateTargetsForSection width rng (9 * i) y)
      else acc)
    ([], [])

/-- The resize boundary: `handleResize` (lines 232–243) stores the new canvas
size, after which the effect of lines 103–122 replaces `holes` and `targets`.
No other state (`puck`, `score`, `viewOffset`, flags) is touched. -/
def applyResize (s : GameState) (newWidth newHeight : ℚ) (rng : ℕ → ℚ) : GameState :=
  let r := regenerate newWidth newHeight rng
  { s with width := newWidth, height := newHeight, holes := r.1, targets := r.2 }

/-! ## JavaScript float semantics for the distance-zero collision path -/

/-- A JavaScript number as used on the collision-normal path: `none` models
NaN.  (Signed infinities are not modelled; on the path analysed here the only
division with zero divisor is `0 / 0`, which is NaN in JavaScript.) -/
abbrev JsNum := Option ℚ

def jAdd : JsNum → JsNum → JsNum
  | some a, some b => some (a + b)
  | _, _ => none

def jSub : JsNum → JsNum → JsNum
  | some a, some b => some (a - b)
  | _, _ => none

def jMul : JsNum → JsNum → JsNum
  | some a, some b => some (a * b)
  | _, _ => none

def jNeg : JsNum → JsNum
  | some a => some (-a)
  | none => none

/-- Division: a zero divisor yields NaN.  This is exact JavaScript behaviour
when the dividend is also zero (`0/0 = NaN`), the only case reached below. -/
def jDiv : JsNum → JsNum → JsNum
  | some a, some b => if b = 0 then none else some (a / b)
  | _, _ => none

/-- JavaScript `<`: any comparison involving NaN is false. -/
def jLt : JsNum → JsNum → Bool
  | some a, some b => decide (a < b)
  | _, _ => false

/-- A target as seen by the NaN-aware model. -/
structure TargetJS where
  x : JsNum
  y : JsNum
  vx : JsNum
  vy : JsNum
  isVisible : Bool

/-- The body of lines 142–182 once more, but over `JsNum`, so that the
JavaScript behaviour of `dx / distance` at `distance = 0` is visible.  `d` is
the computed distance (`some 0` when puck and target coincide, since
`Math.sqrt(0) = 0` exactly). -/
def collideOneJS (px py : JsNum) (acc : JsNum × JsNum × Bool) (t : TargetJS) (d : JsNum) :
    (JsNum × JsNum × Bool) × TargetJS :=
  if t.isVisible = false then (acc, t)
  else
    let dx := jSub t.x px
    let dy := jSub t.y py
    let minDistance : JsNum := some ((PUCK_RADIUS + TARGET_RADIUS) * COLLISION_MULTIPLIER)
    if jLt d minDistance then
      let nx := jDiv dx d
      let ny := jDiv dy d
      let newTargetVx := jMul (jNeg acc.1) (some DISK_BOUNCE)
      let newTargetVy := jMul (jNeg acc.2.1) (some DISK_BOUNCE)
      let fvx := jMul acc.1 (some WALL_BOUNCE)
      let fvy := jMul acc.2.1 (some WALL_BOUNCE)
      let overlap := jSub minDistance d
      let pushX := jDiv (jMul nx overlap) (some 2)
      let pushY := jDiv (jMul ny overlap) (some 2)
      ((fvx, fvy, true),
       { t with x := jAdd t.x pushX, y := jAdd t.y pushY, vx := newTargetVx, vy := newTargetVy })
    else (acc, t)

/-! # Supporting lemmas -/

/-- Iterating the friction multiplication scales each component by
`FRICTION ^ n`. -/
lemma frictionStep_iterate (v : ℚ × ℚ) (n : ℕ) :
    frictionStep^[n] v = (v.1 * FRICTION ^ n, v.2 * FRICTION ^ n) := by
  induction n with
  | zero => simp
  | succ n ih =>
    rw [Function.iterate_succ_apply', ih]
    simp only [frictionStep, pow_succ]
    exact Prod.ext (by ring) (by ring)

/-! # Claims -/

/-- C1 (amended): a pointer-up while a drag is in progress (both endpoints
recorded) and the puck is not moving launches the puck with velocity
`(dragAnchor - dragCurrent) * shotScale` componentwise — slingshot
semantics, no magnitude cap — and enters the Moving phase; the spec's
scenario drag (anchor `(500,500)`, current `(450,460)`) therefore yields
velocity `(50·shotScale, 40·shotScale) = (5, 4)`. -/
theorem handlePointerUp_launch (a c : ℚ × ℚ) (pvx pvy : ℚ) :
    ((handlePointerUp true (some a) (some c) false pvx pvy).vx = (a.1 - c.1) * shotScale
      ∧ (handlePointerUp true (some a) (some c) false pvx pvy).vy = (a.2 - c.2) * shotScale
      ∧ (handlePointerUp true (some a) (some c) false pvx pvy).isMoving = true)
    ∧ (handlePointerUp true (some (500, 500)) (some (450, 460)) false pvx pvy).vx = 5
    ∧ (handlePointerUp true (some (500, 500)) (some (450, 460)) false pvx pvy).vy = 4 := by
  refine ⟨⟨rfl, rfl, rfl⟩, ?_, ?_⟩ <;> norm_num [handlePointerUp, shotScale]

/-- C1 counterexample: on the scenario drag (anchor `(500,500)`, current
`(450,460)`) the committed velocity components are `(5, 4)`, not
`(5·shotScale, 4·shotScale)` as the claim states (`shotScale = 0.1`). -/
theorem handlePointerUp_scenario_not_five_scale :
    (handlePointerUp true (some (500, 500)) (some (450, 460)) false 0 0).vx ≠ 5 * shotScale
    ∧ (handlePointerUp true (some (500, 500)) (some (450, 460)) false 0 0).vy ≠ 4 * shotScale := by
  norm_num [handlePointerUp, shotScale]

/-- C2: the friction multiplication (`v *= FRICTION` on both components, the
same statements for the puck and for each visible target) never increases the
squared speed, with equality exactly at zero velocity, and iterating it
drives both velocity components strictly below the stop threshold
`VELOCITY_THRESHOLD` after finitely many steps. -/
theorem friction_energy_decay (v : ℚ × ℚ) :
    speedSq (frictionStep v) ≤ speedSq v
    ∧ (speedSq (frictionStep v) = speedSq v ↔ v = (0, 0))
    ∧ ∃ n : ℕ, |(frictionStep^[n] v).1| < VELOCITY_THRESHOLD
        ∧ |(frictionStep^[n] v).2| < VELOCITY_THRESHOLD := by
  have hsq : speedSq (frictionStep v) = FRICTION ^ 2 * speedSq v := by
    simp only [speedSq, frictionStep]
    ring
  have hnn : (0 : ℚ) ≤ speedSq v := by
    have := sq_nonneg v.1
    have := sq_nonneg v.2
    simp only [speedSq]
    positivity
  refine ⟨?_, ?_, ?_⟩
  · rw [hsq]
    have hF : FRICTION ^ 2 ≤ 1 := by norm_num [FRICTION]
    nlinarith [hnn, hF]
  · constructor
    · intro h
      rw [hsq] at h
      have hz : speedSq v = 0 := by
        norm_num [FRICTION] at h
        linarith
      have h1 : v.1 ^ 2 = 0 := by
        have := sq_nonneg v.1
        have := sq_nonneg v.2
        simp only [speedSq] at hz
        linarith
      have h2 : v.2 ^ 2 = 0 := by
        have := sq_nonneg v.1
        simp only [speedSq] at hz
        linarith
      have hv1 : v.1 = 0 := by
        exact pow_eq_zero_iff (two_ne_zero) |>.mp h1
      have hv2 : v.2 = 0 := by
        exact pow_eq_zero_iff (two_ne_zero) |>.mp h2
      exact Prod.ext hv1 hv2
    · intro h
      rw [h] at hsq ⊢
      simp [speedSq, frictionStep]
  · have hS : (0 : ℚ) < 1 + |v.1| + |v.2| := by
      have := abs_nonneg v.1
      have := abs_nonneg v.2
      linarith
    have hT : (0 : ℚ) < VELOCITY_THRESHOLD / (1 + |v.1| + |v.2|) := by
      apply div_pos _ hS
      norm_num [VELOCITY_THRESHOLD]
    obtain ⟨n, hn⟩ := exists_pow_lt_of_lt_one hT (show FRICTION < 1 by norm_num [FRICTION])
    refine ⟨n, ?_, ?_⟩ <;>
    · rw [frictionStep_iterate]
      have hFn : (0 : ℚ) ≤ FRICTION ^ n :=
        pow_nonneg (by norm_num [FRICTION]) n
      have habs : |FRICTION ^ n| = FRICTION ^ n := abs_of_nonneg hFn
      have hcomp : (1 + |v.1| + |v.2|) * FRICTION ^ n <
          (1 + |v.1| + |v.2|) * (VELOCITY_THRESHOLD / (1 + |v.1| + |v.2|)) :=
        mul_lt_mul_of_pos_left hn hS
      have hdc : (1 + |v.1| + |v.2|) * (VELOCITY_THRESHOLD / (1 + |v.1| + |v.2|)) =
          VELOCITY_THRESHOLD := by
        rw [mul_comm]
        exact div_mul_cancel₀ _ (ne_of_gt hS)
      simp only [abs_mul, habs]
      have h1 : |v.1| ≤ 1 + |v.1| + |v.2| := by
        have := abs_nonneg v.1
        have := abs_nonneg v.2
        linarith
      have h2 : |v.2| ≤ 1 + |v.1| + |v.2| := by
        have := abs_nonneg v.1
        have := abs_nonneg v.2
        linarith
      calc _ ≤ (1 + |v.1| + |v.2|) * FRICTION ^ n := by
              first
              | exact mul_le_mul_of_nonneg_right h1 hFn
              | exact mul_le_mul_of_nonneg_right h2 hFn
        _ < (1 + |v.1| + |v.2|) * (VELOCITY_THRESHOLD / (1 + |v.1| + |v.2|)) := hcomp
        _ = VELOCITY_THRESHOLD := hdc

/-- C5: for a single-hole list anchored at either border (and a field wider
than both borders, `60 < width`), the sink predicates of the source register
a sink exactly when the entity is within `HOLE_RADIUS` of the hole centre
*and* on the field side: strictly right of a left-border hole, strictly left
of a right-border hole; an entity on the wrong side at the same distance
never sinks.  Stated for both `checkHoleCollision` (the puck, tested at
`(x, y + viewOffset)`) and `checkTargetHoleCollision` (targets). -/
theorem hole_side_correctness (width hy ex ey vOff : ℚ) (hw : 60 < width) :
    (checkHoleCollision width [⟨BORDER_WIDTH, hy⟩] ex ey vOff = true ↔
        distSq ex (ey + vOff) BORDER_WIDTH hy < HOLE_RADIUS ^ 2 ∧ BORDER_WIDTH < ex)
    ∧ (checkHoleCollision width [⟨width - BORDER_WIDTH, hy⟩] ex ey vOff = true ↔
        distSq ex (ey + vOff) (width - BORDER_WIDTH) hy < HOLE_RADIUS ^ 2
          ∧ ex < width - BORDER_WIDTH)
    ∧ (∀ t : Target, checkTargetHoleCollision width [⟨BORDER_WIDTH, hy⟩] t = true ↔
        distSq t.x t.y BORDER_WIDTH hy < HOLE_RADIUS ^ 2 ∧ BORDER_WIDTH < t.x)
    ∧ (∀ t : Target, checkTargetHoleCollision width [⟨width - BORDER_WIDTH, hy⟩] t = true ↔
        distSq t.x t.y (width - BORDER_WIDTH) hy < HOLE_RADIUS ^ 2
          ∧ t.x < width - BORDER_WIDTH) := by
  have hL : BORDER_WIDTH < width / 2 := by
    norm_num [BORDER_WIDTH]
    linarith
  have hR : ¬(width - BORDER_WIDTH < width / 2) := by
    norm_num [BORDER_WIDTH]
    linarith
  refine ⟨?_, ?_, fun t => ?_, fun t => ?_⟩ <;>
    simp [checkHoleCollision, checkTargetHoleCollision, hL, hR]

/-- Witness for C5: the point `(35, 100)` is 5 px from the left-border hole
`(30, 100)` on a 1000-wide field and on its field side, so it sinks. -/
theorem hole_side_correctness_witness :
    checkHoleCollision 1000 [⟨BORDER_WIDTH, 100⟩] 35 100 0 = true :=
  ((hole_side_correctness 1000 100 35 100 0 (by norm_num)).1).mpr
    (by norm_num [distSq, BORDER_WIDTH, HOLE_RADIUS])

/-- C7 counterexample: a pointer-up with a zero-length drag vector
(`dragStart = dragEnd = (100, 100)`) still sets `isMoving` — the game *does*
enter the Moving phase, contrary to the claim. -/
theorem zero_drag_sets_moving :
    (handlePointerUp true (some (100, 100)) (some (100, 100)) false 0 0).isMoving = true := rfl

/-- C7 (amended): a zero-length drag commits a launch with velocity exactly
`(0, 0)` — no division by the drag length occurs on the velocity path, so no
non-finite value can arise — but the game does enter the Moving phase (the
next tick then immediately settles, the velocity being below threshold). -/
theorem zero_drag_velocity (p : ℚ × ℚ) (pvx pvy : ℚ) :
    (handlePointerUp true (some p) (some p) false pvx pvy).vx = 0
    ∧ (handlePointerUp true (some p) (some p) false pvx pvy).vy = 0
    ∧ (handlePointerUp true (some p) (some p) false pvx pvy).isMoving = true := by
  simp [handlePointerUp]

/-- C8: with the puck and a visible target at the same point `(100, 100)`
(distance exactly 0, since `Math.sqrt(0) = 0`) and incoming puck velocity
`(1, 0)`, the collision-normal computation divides zero by zero: the target's
stored position becomes NaN on both axes.  No distance-zero guard exists in
the code (the velocities, which do not involve the normal, stay finite). -/
theorem distance_zero_collision_nan :
    ((collideOneJS (some 100) (some 100) (some 1, some 0, false)
        ⟨some 100, some 100, some 0, some 0, true⟩ (some 0)).2.x = none)
    ∧ ((collideOneJS (some 100) (some 100) (some 1, some 0, false)
        ⟨some 100, some 100, some 0, some 0, true⟩ (some 0)).2.y = none)
    ∧ ((collideOneJS (some 100) (some 100) (some 1, some 0, false)
        ⟨some 100, some 100, some 0, some 0, true⟩ (some 0)).1.1 = some (9 / 10))
    ∧ ((collideOneJS (some 100) (some 100) (some 1, some 0, false)
        ⟨some 100, some 100, some 0, some 0, true⟩ (some 0)).2.vx = some (-19 / 20)) := by
  norm_num [collideOneJS, jSub, jDiv, jMul, jAdd, jNeg, jLt,
    PUCK_RADIUS, TARGET_RADIUS, COLLISION_MULTIPLIER, WALL_BOUNCE, DISK_BOUNCE]

/-- A pre-resize state: the single section's target has already been sunk
(`isVisible = false`) and scored. -/
def preResizeState : GameState :=
  { puck := ⟨500, 400, 0, 0⟩,
    targets := [⟨500, 300, 0, 0, false, 1, false⟩],
    holes := [⟨30, 150⟩, ⟨970, 150⟩],
    width := 1000, height := 300, viewOffset := 0, score := 10,
    isMoving := false, isSinking := false }

/-- C9 counterexample: resizing the 1000×300 canvas to 1000×340 re-runs the
layout effect, which regenerates the target list from scratch: the already
spawned (and fully consumed) section at `y = 150` is respawned with three
fresh visible targets, so the sunk target's retirement is forgotten. -/
theorem resize_respawns_targets :
    (applyResize preResizeState 1000 340 fun _ => 1 / 2).targets ≠ preResizeState.targets
    ∧ (∀ t ∈ (applyResize preResizeState 1000 340 fun _ => 1 / 2).targets, t.isVisible = true)
    ∧ ∃ t ∈ preResizeState.targets, t.isVisible = false := by
  have hgen : (applyResize preResizeState 1000 340 fun _ => 1 / 2).targets =
      [⟨500, 300, 0, 0, false, 1, true⟩, ⟨500, 300, 0, 0, false, 1, true⟩,
       ⟨500, 300, 0, 0, false, 1, true⟩] := by
    norm_num [applyResize, regenerate, generateTargetsForSection, BORDER_WIDTH, TARGET_RADIUS,
      HOLE_VERTICAL_SPACING, HOLE_RADIUS, TARGETS_PER_SECTION, List.range_succ]
  rw [hgen]
  refine ⟨by simp [preResizeState], by simp, ?_⟩
  exact ⟨⟨500, 300, 0, 0, false, 1, false⟩, by simp [preResizeState]⟩

/-- C9 (amended): a canvas resize leaves the puck's position and velocity,
the score, and the viewport offset unchanged and recomputes the hole layout —
but it also replaces the entire target list with freshly generated targets,
respawning already-spawned sections. -/
theorem resize_preserves_puck_and_score (s : GameState) (w h : ℚ) (rng : ℕ → ℚ) :
    (applyResize s w h rng).puck = s.puck
    ∧ (applyResize s w h rng).score = s.score
    ∧ (applyResize s w h rng).viewOffset = s.viewOffset
    ∧ (applyResize s w h rng).holes = (regenerate w h rng).1
    ∧ (applyResize s w h rng).targets = (regenerate w h rng).2 :=
  ⟨rfl, rfl, rfl, rfl, rfl⟩

/-- The concrete state of the C10 counterexample: an 800-high field with the
puck at screen `y = 700`, beyond the claimed `0.7 · height = 560` scroll
threshold, moving with velocity `(10, 10)`. -/
def scrollProbeState : GameState :=
  { puck := ⟨500, 700, 10, 10⟩, targets := [], holes := [], width := 1000, height := 800,
    viewOffset := 0, score := 0, isMoving := true, isSinking := false }

/-- C10 counterexample: ticking `scrollProbeState` leaves `viewOffset` at 0
and integrates the puck to `y = 710` — it is not pulled back to the threshold
560 and no excess is added to the offset. -/
theorem scroll_threshold_unimplemented :
    (tick scrollProbeState fun _ => 0).viewOffset = 0
    ∧ (tick scrollProbeState fun _ => 0).puck.y = 710
    ∧ (7 / 10 : ℚ) * scrollProbeState.height < scrollProbeState.puck.y := by
  norm_num [tick, scrollProbeState, handleTargetCollisions, wallAxis, checkHoleCollision,
    VELOCITY_THRESHOLD, FRICTION, WALL_BOUNCE, BORDER_WIDTH, PUCK_RADIUS, DISK_BOUNCE,
    targetTick, abs_lt]

/-- C10 (amended): the physics tick never modifies `viewOffset` — the
viewport-scrolling feature is not implemented; the offset keeps its initial
value 0 across any sequence of ticks, and the puck's vertical position is
instead confined by reflection at the field's top and bottom edges. -/
theorem tick_viewOffset_constant :
    (∀ (s : GameState) (ds : ℕ → ℚ), (tick s ds).viewOffset = s.viewOffset)
    ∧ ∀ (s : GameState) (dss : List (ℕ → ℚ)), (tickSeq s dss).viewOffset = s.viewOffset := by
  have h1 : ∀ (s : GameState) (ds : ℕ → ℚ), (tick s ds).viewOffset = s.viewOffset := by
    intro s ds
    simp only [tick]
    split_ifs <;> rfl
  refine ⟨h1, fun s dss => ?_⟩
  induction dss generalizing s with
  | nil => rfl
  | cons d rest ih =>
    rw [tickSeq, List.foldl_cons, ← tickSeq, ih, h1]

/-- Pushing a point at distance `d` from the origin of the collision frame
outward by `ov/2` along its own direction yields distance `d + ov/2`. -/
lemma push_dist (dx dy d ov : ℚ) (hd : d ≠ 0) (h : d * d = dx ^ 2 + dy ^ 2) :
    (dx + dx / d * ov / 2) ^ 2 + (dy + dy / d * ov / 2) ^ 2 = (d + ov / 2) ^ 2 := by
  field_simp
  ring_nf
  linear_combination (-4 * (2 * d + ov) ^ 2) * h

/-- C4: for a visible target whose centre lies within
`(PUCK_RADIUS + TARGET_RADIUS) * COLLISION_MULTIPLIER` of the puck (`d` the
true distance, positive), the resolution sets the target's velocity to the
incoming puck velocity negated and scaled by `DISK_BOUNCE`, damps the puck's
running velocity by `WALL_BOUNCE`, flags the collision, and pushes the target
half the overlap along the collision normal (so the separation becomes
`d + overlap/2`); and `handleTargetCollisions` resolves a target list in list
order, threading the puck velocity left by each resolution into the next. -/
theorem collision_resolution (px py d : ℚ) (acc : CollideAcc) (t : Target)
    (hvis : t.isVisible = true) (hd0 : 0 < d)
    (hdsq : d * d = distSq px py t.x t.y)
    (hclose : d < (PUCK_RADIUS + TARGET_RADIUS) * COLLISION_MULTIPLIER) :
    (collideOne px py acc t d =
      (⟨acc.vx * WALL_BOUNCE, acc.vy * WALL_BOUNCE, true⟩,
       { t with
          x := t.x + (t.x - px) / d *
                ((PUCK_RADIUS + TARGET_RADIUS) * COLLISION_MULTIPLIER - d) / 2,
          y := t.y + (t.y - py) / d *
                ((PUCK_RADIUS + TARGET_RADIUS) * COLLISION_MULTIPLIER - d) / 2,
          vx := -acc.vx * DISK_BOUNCE, vy := -acc.vy * DISK_BOUNCE }))
    ∧ distSq px py (collideOne px py acc t d).2.x (collideOne px py acc t d).2.y =
        (d + ((PUCK_RADIUS + TARGET_RADIUS) * COLLISION_MULTIPLIER - d) / 2) ^ 2
    ∧ ∀ (rest : List Target) (ds : ℕ → ℚ),
        handleTargetCollisions px py acc (t :: rest) ds =
          ((collideOne px py acc t (ds 0)).2 ::
             (handleTargetCollisions px py (collideOne px py acc t (ds 0)).1 rest
                fun n => ds (n + 1)).1,
           (handleTargetCollisions px py (collideOne px py acc t (ds 0)).1 rest
                fun n => ds (n + 1)).2) := by
  have hmain : collideOne px py acc t d =
      (⟨acc.vx * WALL_BOUNCE, acc.vy * WALL_BOUNCE, true⟩,
       { t with
          x := t.x + (t.x - px) / d *
                ((PUCK_RADIUS + TARGET_RADIUS) * COLLISION_MULTIPLIER - d) / 2,
          y := t.y + (t.y - py) / d *
                ((PUCK_RADIUS + TARGET_RADIUS) * COLLISION_MULTIPLIER - d) / 2,
          vx := -acc.vx * DISK_BOUNCE, vy := -acc.vy * DISK_BOUNCE }) := by
    simp only [collideOne, hvis]
    rw [if_neg (by simp), if_pos hclose]
  refine ⟨hmain, ?_, fun rest ds => rfl⟩
  rw [hmain]
  simp only [distSq]
  have hdx : d * d = (t.x - px) ^ 2 + (t.y - py) ^ 2 := by
    rw [hdsq]
    simp only [distSq]
  have := push_dist (t.x - px) (t.y - py) d
    ((PUCK_RADIUS + TARGET_RADIUS) * COLLISION_MULTIPLIER - d) (ne_of_gt hd0) hdx
  calc (t.x + (t.x - px) / d * ((PUCK_RADIUS + TARGET_RADIUS) * COLLISION_MULTIPLIER - d) / 2
          - px) ^ 2
        + (t.y + (t.y - py) / d * ((PUCK_RADIUS + TARGET_RADIUS) * COLLISION_MULTIPLIER - d) / 2
          - py) ^ 2
      = ((t.x - px) + (t.x - px) / d *
            ((PUCK_RADIUS + TARGET_RADIUS) * COLLISION_MULTIPLIER - d) / 2) ^ 2
        + ((t.y - py) + (t.y - py) / d *
            ((PUCK_RADIUS + TARGET_RADIUS) * COLLISION_MULTIPLIER - d) / 2) ^ 2 := by ring
    _ = (d + ((PUCK_RADIUS + TARGET_RADIUS) * COLLISION_MULTIPLIER - d) / 2) ^ 2 := this

/-- Witness for C4: puck at the origin moving with `(2, 0)`, visible target at
`(3, 4)` (distance 5, within the slack radius 30): the resolution damps the
puck velocity to `(1.8, 0)`, throws the target at `(-1.9, 0)`, and the
separation becomes `5 + 25/2 = 35/2`. -/
theorem collision_resolution_witness :
    (collideOne 0 0 ⟨2, 0, false⟩ ⟨3, 4, 0, 0, false, 1, true⟩ 5).1 =
        ⟨2 * WALL_BOUNCE, 0 * WALL_BOUNCE, true⟩
    ∧ distSq 0 0 (collideOne 0 0 ⟨2, 0, false⟩ ⟨3, 4, 0, 0, false, 1, true⟩ 5).2.x
        (collideOne 0 0 ⟨2, 0, false⟩ ⟨3, 4, 0, 0, false, 1, true⟩ 5).2.y = (35 / 2) ^ 2 := by
  have h := collision_resolution 0 0 5 ⟨2, 0, false⟩ ⟨3, 4, 0, 0, false, 1, true⟩ rfl
    (by norm_num) (by norm_num [distSq])
    (by norm_num [PUCK_RADIUS, TARGET_RADIUS, COLLISION_MULTIPLIER])
  refine ⟨by rw [h.1], ?_⟩
  rw [h.2.1]
  norm_num [PUCK_RADIUS, TARGET_RADIUS, COLLISION_MULTIPLIER]

/-- Every per-target score increment of a tick is nonnegative. -/
lemma targetTick_snd_nonneg (w hgt : ℚ) (hs : List Hole) (t : Target) :
    0 ≤ (targetTick w hgt hs t).2 := by
  simp only [targetTick]
  split_ifs <;> norm_num

/-- The tick's score is the old score plus the per-target increments of the
target pass. -/
lemma tick_score (s : GameState) (ds : ℕ → ℚ) :
    (tick s ds).score = s.score +
      (((handleTargetCollisions (s.puck.x + s.puck.vx) (s.puck.y + s.puck.vy)
          ⟨s.puck.vx, s.puck.vy, false⟩ s.targets ds).1.map
            fun t => targetTick s.width s.height s.holes t).map Prod.snd).sum := by
  simp only [tick]
  split_ifs <;> rfl

/-- The score never decreases across one tick. -/
lemma tick_score_mono (s : GameState) (ds : ℕ → ℚ) : s.score ≤ (tick s ds).score := by
  rw [tick_score]
  have hnn : 0 ≤ (((handleTargetCollisions (s.puck.x + s.puck.vx) (s.puck.y + s.puck.vy)
      ⟨s.puck.vx, s.puck.vy, false⟩ s.targets ds).1.map
        fun t => targetTick s.width s.height s.holes t).map Prod.snd).sum := by
    apply List.sum_nonneg
    intro x hx
    simp only [List.map_map, List.mem_map, Function.comp] at hx
    obtain ⟨t, _, ht⟩ := hx
    rw [← ht]
    exact targetTick_snd_nonneg _ _ _ _
  linarith

/-- C6: the score is monotonically non-decreasing over every tick and every
sequence of ticks; a visible target that passes the hole test is marked
invisible and contributes exactly 25 (red) or 10 (blue); and an invisible
target is inert — excluded from the collision pass (`collideOne` returns it
and the puck velocity unchanged) and from integration, hole tests and
scoring (`targetTick` returns it unchanged with increment 0), so each target
contributes at most once. -/
theorem score_monotone_and_exact :
    (∀ (s : GameState) (ds : ℕ → ℚ), s.score ≤ (tick s ds).score)
    ∧ (∀ (s : GameState) (dss : List (ℕ → ℚ)), s.score ≤ (tickSeq s dss).score)
    ∧ (∀ (w hgt : ℚ) (hs : List Hole) (t : Target), t.isVisible = true →
        checkTargetHoleCollision w hs t = true →
        targetTick w hgt hs t = ({ t with isVisible := false }, if t.type then 25 else 10))
    ∧ (∀ (w hgt : ℚ) (hs : List Hole) (t : Target), t.isVisible = false →
        targetTick w hgt hs t = (t, 0))
    ∧ ∀ (px py d : ℚ) (acc : CollideAcc) (t : Target), t.isVisible = false →
        collideOne px py acc t d = (acc, t) := by
  refine ⟨tick_score_mono, fun s dss => ?_, fun w hgt hs t hv hsink => ?_,
    fun w hgt hs t hv => ?_, fun px py d acc t hv => ?_⟩
  · induction dss generalizing s with
    | nil => exact le_refl _
    | cons dd rest ih =>
      rw [tickSeq, List.foldl_cons, ← tickSeq]
      exact le_trans (tick_score_mono s dd) (ih (tick s dd))
  · simp only [targetTick, hv]
    rw [if_neg (by simp), if_pos hsink]
  · simp [targetTick, hv]
  · simp [collideOne, hv]

/-- Witness for C6: a visible red target 5 px inside the left-border hole
`(30, 100)` on a 1000×800 field is retired and scores exactly 25. -/
theorem score_monotone_and_exact_witness :
    targetTick 1000 800 [⟨30, 100⟩] ⟨35, 100, 0, 0, true, 1, true⟩ =
      (⟨35, 100, 0, 0, true, 1, false⟩, 25) := by
  have h := score_monotone_and_exact.2.2.1 1000 800 [⟨30, 100⟩]
    ⟨35, 100, 0, 0, true, 1, true⟩ rfl
    (by norm_num [checkTargetHoleCollision, distSq, HOLE_RADIUS])
  simpa using h

/-- The clamp-and-reflect pair of `if`s keeps a coordinate within
`[lo + r, hi - r]` whatever the incoming coordinate, provided the band is
nonempty. -/
lemma wallAxis_bounds (lo hi r : ℚ) (p : ℚ × ℚ) (h : lo + 2 * r ≤ hi) :
    lo + r ≤ (wallAxis lo hi r p).1 ∧ (wallAxis lo hi r p).1 ≤ hi - r := by
  simp only [wallAxis]
  split_ifs <;> constructor <;> (try simp) <;> linarith

/-- A target still visible after its integration step has both coordinates
inside the field (walls at the side borders, field edges above and below). -/
lemma targetTick_visible_bounds (w hgt : ℚ) (hs : List Hole) (t : Target)
    (hw : 2 * (BORDER_WIDTH + TARGET_RADIUS) ≤ w) (hh : 2 * TARGET_RADIUS ≤ hgt)
    (hv : (targetTick w hgt hs t).1.isVisible = true) :
    BORDER_WIDTH + TARGET_RADIUS ≤ (targetTick w hgt hs t).1.x
    ∧ (targetTick w hgt hs t).1.x ≤ w - BORDER_WIDTH - TARGET_RADIUS
    ∧ TARGET_RADIUS ≤ (targetTick w hgt hs t).1.y
    ∧ (targetTick w hgt hs t).1.y ≤ hgt - TARGET_RADIUS := by
  have hx := wallAxis_bounds BORDER_WIDTH (w - BORDER_WIDTH) TARGET_RADIUS
    (t.x + t.vx, t.vx) (by linarith)
  have hy := wallAxis_bounds 0 hgt TARGET_RADIUS (t.y + t.vy, t.vy) (by linarith)
  simp only [targetTick] at hv ⊢
  split_ifs at hv ⊢ with h1 h2
  · rw [h1] at hv
    simp at hv
  · exact ⟨hx.1, hx.2, le_trans (by linarith) hy.1, hy.2⟩

/-- The target list produced by a tick, in every branch of the tick. -/
lemma tick_targets (s : GameState) (ds : ℕ → ℚ) :
    (tick s ds).targets =
      ((handleTargetCollisions (s.puck.x + s.puck.vx) (s.puck.y + s.puck.vy)
        ⟨s.puck.vx, s.puck.vy, false⟩ s.targets ds).1.map
          fun t => targetTick s.width s.height s.holes t).map Prod.fst := by
  simp only [tick]
  split_ifs <;> rfl

/-- C3: after any tick (on a field wide enough to hold the borders plus a
disk, and tall enough for a disk, with the puck starting inside its band —
only relevant to the sinking branch, which leaves the puck untouched), the
puck lies within `[BORDER_WIDTH + PUCK_RADIUS, width - BORDER_WIDTH -
PUCK_RADIUS]` horizontally and `[PUCK_RADIUS, height - PUCK_RADIUS]`
vertically, and every still-visible target lies within the corresponding
`TARGET_RADIUS` bands: neither wall reflection nor the collision separation
push leaves a residual out-of-bounds coordinate at the end of the tick. -/
theorem tick_wall_containment (s : GameState) (ds : ℕ → ℚ)
    (hw : 2 * (BORDER_WIDTH + TARGET_RADIUS) ≤ s.width)
    (hh : 2 * TARGET_RADIUS ≤ s.height)
    (hpx : BORDER_WIDTH + PUCK_RADIUS ≤ s.puck.x
      ∧ s.puck.x ≤ s.width - BORDER_WIDTH - PUCK_RADIUS)
    (hpy : PUCK_RADIUS ≤ s.puck.y ∧ s.puck.y ≤ s.height - PUCK_RADIUS) :
    (BORDER_WIDTH + PUCK_RADIUS ≤ (tick s ds).puck.x
      ∧ (tick s ds).puck.x ≤ s.width - BORDER_WIDTH - PUCK_RADIUS
      ∧ PUCK_RADIUS ≤ (tick s ds).puck.y
      ∧ (tick s ds).puck.y ≤ s.height - PUCK_RADIUS)
    ∧ ∀ t ∈ (tick s ds).targets, t.isVisible = true →
        BORDER_WIDTH + TARGET_RADIUS ≤ t.x ∧ t.x ≤ s.width - BORDER_WIDTH - TARGET_RADIUS
        ∧ TARGET_RADIUS ≤ t.y ∧ t.y ≤ s.height - TARGET_RADIUS := by
  have hPT : PUCK_RADIUS ≤ TARGET_RADIUS := by norm_num [PUCK_RADIUS, TARGET_RADIUS]
  have hxw := fun (p : ℚ × ℚ) =>
    wallAxis_bounds BORDER_WIDTH (s.width - BORDER_WIDTH) PUCK_RADIUS p (by linarith)
  have hyw := fun (p : ℚ × ℚ) =>
    wallAxis_bounds 0 s.height PUCK_RADIUS p (by linarith)
  constructor
  · simp only [tick]
    split_ifs <;>
      first
      | exact ⟨hpx.1, hpx.2, hpy.1, hpy.2⟩
      | exact ⟨(hxw _).1, (hxw _).2, le_trans (by linarith) (hyw _).1, (hyw _).2⟩
  · intro t ht hv
    rw [tick_targets] at ht
    simp only [List.map_map, List.mem_map, Function.comp] at ht
    obtain ⟨t0, _, ht0⟩ := ht
    rw [← ht0] at hv ⊢
    exact targetTick_visible_bounds s.width s.height s.holes t0 hw hh hv

/-- The concrete state instantiating the C3 witness: a 1000×800 field, the
puck moving fast near the centre, one visible target near the left border. -/
def containmentProbeState : GameState :=
  { puck := ⟨500, 400, 50, -30⟩, targets := [⟨100, 100, 5, 5, false, 1, true⟩],
    holes := [], width := 1000, height := 800, viewOffset := 0, score := 0,
    isMoving := true, isSinking := false }

/-- Witness for C3: the containment bounds hold after ticking
`containmentProbeState`. -/
theorem tick_wall_containment_witness :
    BORDER_WIDTH + PUCK_RADIUS ≤ (tick containmentProbeState fun _ => 1000).puck.x
    ∧ (tick containmentProbeState fun _ => 1000).puck.x ≤
        containmentProbeState.width - BORDER_WIDTH - PUCK_RADIUS
    ∧ PUCK_RADIUS ≤ (tick containmentProbeState fun _ => 1000).puck.y
    ∧ (tick containmentProbeState fun _ => 1000).puck.y ≤
        containmentProbeState.height - PUCK_RADIUS :=
  (tick_wall_containment containmentProbeState (fun _ => 1000)
    (by norm_num [BORDER_WIDTH, TARGET_RADIUS, containmentProbeState])
    (by norm_num [TARGET_RADIUS, containmentProbeState])
    (by norm_num [BORDER_WIDTH, PUCK_RADIUS, containmentProbeState])
    (by norm_num [PUCK_RADIUS, containmentProbeState])).1
